import Mathlib

/-!
Verification of the organization API-key engine described in the Motion
Canvas planning documents.  The scope evaluator (`hasScope`), the request
middleware (`withAuth`), the secret generator (`generateAPIKey`) and the
active-key predicate (the partial index `idx_api_keys_active`) are embedded
directly from the source.  The verifier and the key lifecycle operations are
declared in the repository (interfaces, endpoints, SQL schema, flow
diagrams) but their bodies delegate to external services; those are
modelled from the specification and marked as such.

Secrets, hashes and key prefixes are modelled as `List Char` (JS strings
are char sequences); timestamps are `Nat`; the salted one-way hash is an
explicit function parameter, so that theorems quantify over every possible
hash function.
-/

namespace MCKeys

/-! ## Scope evaluator (embedded from `lib/auth/scopes.ts` in
src/docs/ORGANIZATION_API_KEYS_PLAN.md, section 4.2) -/

/-- The resource part of a required scope: `requiredScope.split(':')[0]` in
the source, i.e. the characters before the first `':'` (the whole string
when there is no `':'`). -/
def resourceOf (requiredScope : String) : String :=
  String.mk (requiredScope.data.takeWhile (fun c => c ≠ ':'))

/-- Embeds `hasScope(userScopes: string[] | undefined, requiredScope: string)`:
returns `false` for an absent grant set; otherwise tests the global
wildcard, then the exact scope, then the resource wildcard
`` `${resource}:*` ``. -/
def hasScope (userScopes : Option (List String)) (requiredScope : String) : Bool :=
  match userScopes with
  | none => false
  | some grants =>
    if grants.contains "*" then true
    else if grants.contains requiredScope then true
    else if grants.contains (resourceOf requiredScope ++ ":*") then true
    else false

/-! ## Data model (from `src/unnamed/part_000`, sections 2.2 and 9) -/

/-- The `subjectType` enum `'user' | 'organization'`. -/
inductive SubjectType
  | user
  | organization
deriving DecidableEq

/-- The `APIKey` record of section 2.2 / the `api_keys` table of section 9.
The plaintext secret is not a field: only `keyPfx` (the `keyPrefix`
column, renamed here) and `keyHash` are retained. -/
structure APIKey where
  id : String
  subject : String
  subjectType : SubjectType
  name : String
  description : Option String
  keyPfx : List Char
  keyHash : List Char
  scopes : List String
  claims : List (String × String)
  createdBy : String
  lastUsedAt : Option Nat
  expiresAt : Option Nat
  revokedAt : Option Nat
  revokedBy : Option String
  revocationReason : Option String
  createdAt : Nat
  updatedAt : Nat
deriving DecidableEq

/-- Audit event kinds from the `api_key_audit_log` table:
`'created' | 'used' | 'revoked' | 'auth_failed'`. -/
inductive AuditEventType
  | created
  | used
  | revoked
  | authFailed
deriving DecidableEq

/-- One row of `api_key_audit_log`. -/
structure AuditEvent where
  apiKeyId : String
  eventType : AuditEventType
  actorId : Option String
  createdAt : Nat
deriving DecidableEq

/-- The persistent state of the engine: the key table and the append-only
audit log. -/
structure LifecycleState where
  store : List APIKey
  audit : List AuditEvent
deriving DecidableEq

/-! ## Secret generator (embedded from `generateAPIKey`,
`src/unnamed/part_000` section 6.2) -/

/-- The product tag `"mc_"` prepended to every encoded secret. -/
def productTag : List Char := ['m', 'c', '_']

/-- Length of the stored public key prefix: `key.substring(0, 12)` in the
source (tag plus a short fragment of the encoded randomness). -/
def pfxLength : Nat := 12

/-- Embeds `generateAPIKey()`: the random byte material is an explicit
input (the entropy source); returns the full key and its public prefix
exactly as `{ key: `mc_${bytes}`, prefix: key.substring(0, 12) }`. -/
def generateAPIKey (randomPart : List Char) : List Char × List Char :=
  let key := productTag ++ randomPart
  (key, key.take pfxLength)

/-- Deriving the public prefix from a presented secret (step 1 of the
verifier): the leading `pfxLength` characters. -/
def derivePfx (secret : List Char) : List Char := secret.take pfxLength

/-! ## Credential store reads -/

/-- `findByPrefix`: all candidate records sharing a prefix (the prefix is
not unique by design). -/
def findByPfx (store : List APIKey) (p : List Char) : List APIKey :=
  store.filter (fun k => k.keyPfx == p)

/-- Steps 1-3 of the verifier: derive the prefix, fetch candidates, scan
for the first record whose stored hash equals the hash of the presented
secret. -/
def findCandidate (hash : List Char → List Char) (store : List APIKey)
    (secret : List Char) : Option APIKey :=
  (findByPfx store (derivePfx secret)).find? (fun k => k.keyHash == hash secret)

/-- Verification failures, from the error-code table of
`src/unnamed/part_000` section 11: `invalid_api_key`, `revoked_api_key`,
`expired_api_key`. -/
inductive VerifyError
  | InvalidKey
  | RevokedKey
  | ExpiredKey
deriving DecidableEq

/-- Modelled from the spec: the Verifier of section 4.3.  The repository
declares the validation flow (section 5.3 of `src/unnamed/part_000`) and
the error codes, but its `authenticateApiKey` delegates hash checking to an
external service, so the resolution steps are taken from the spec: no
matching candidate fails with `InvalidKey`; a match with `revokedAt`
present fails with `RevokedKey`; a match whose `expiresAt` is present and
past fails with `ExpiredKey`; otherwise the record is returned. -/
def verifyApiKey (hash : List Char → List Char) (store : List APIKey)
    (secret : List Char) (now : Nat) : Except VerifyError APIKey :=
  match findCandidate hash store secret with
  | none => .error .InvalidKey
  | some k =>
    if k.revokedAt.isSome then .error .RevokedKey
    else
      match k.expiresAt with
      | some e => if e ≤ now then .error .ExpiredKey else .ok k
      | none => .ok k

/-! ## Derived status (embedded from the partial index
`idx_api_keys_active` in `src/unnamed/part_000` section 9) -/

/-- The active predicate of the filtered index:
`revoked_at IS NULL AND (expires_at IS NULL OR expires_at > NOW())`. -/
def isActive (now : Nat) (k : APIKey) : Bool :=
  k.revokedAt.isNone &&
    (match k.expiresAt with
     | none => true
     | some e => decide (now < e))

/-- The three derived lifecycle states of a key. -/
inductive KeyStatus
  | active
  | revoked
  | expired
deriving DecidableEq

/-- Modelled from the spec: the status of a key is computed from
`revokedAt` / `expiresAt` at read time (revocation takes precedence, then
expiry), not read from a stored column. -/
def statusOf (now : Nat) (k : APIKey) : KeyStatus :=
  if k.revokedAt.isSome then .revoked
  else
    match k.expiresAt with
    | some e => if e ≤ now then .expired else .active
    | none => .active

/-- The `status` query parameter of the list endpoint
(`active | revoked | expired | all`). -/
inductive StatusFilter
  | active
  | revoked
  | expired
  | all
deriving DecidableEq

/-- Modelled from the spec: `list(subject, statusFilter, pagination)` of
section 4.7; the repository specifies the endpoint and its `status`
parameter but contains no body for it.  Keys of the subject are filtered
by their status computed at read time. -/
def listApiKeys (store : List APIKey) (subject : String) (sf : StatusFilter)
    (now : Nat) : List APIKey :=
  (store.filter (fun k => k.subject == subject)).filter (fun k =>
    match sf with
    | .all => true
    | .active => decide (statusOf now k = KeyStatus.active)
    | .revoked => decide (statusOf now k = KeyStatus.revoked)
    | .expired => decide (statusOf now k = KeyStatus.expired))

/-- The projection returned by `listApiKeys` in section 3.2 of
`src/docs/ORGANIZATION_API_KEYS_PLAN.md`: id, name, creation time and
expiry only — "We don't have access to the actual key anymore". -/
structure APIKeyListItem where
  id : String
  name : String
  createdAt : Nat
  expiresAt : Option Nat
deriving DecidableEq

/-- Embeds the listing projection of section 3.2 over the modelled store. -/
def listApiKeysView (store : List APIKey) (subject : String) : List APIKeyListItem :=
  (store.filter (fun k => k.subject == subject)).map
    (fun k => { id := k.id, name := k.name, createdAt := k.createdAt,
                expiresAt := k.expiresAt })

/-! ## Key lifecycle manager (modelled from the spec, section 4.7; the
repository's server actions delegate creation, update and revocation to an
external key-management service) -/

/-- Failure of `insert` when the generated record id already exists. -/
inductive CreateError
  | DuplicateId
deriving DecidableEq

/-- The record persisted for a freshly created key: it stores only
`derivePfx secret` and `hash secret` of the secret material. -/
def freshRecord (hash : List Char → List Char) (actor subject : String)
    (subjType : SubjectType) (keyName : String) (scopes : List String)
    (claims : List (String × String)) (expiresAt : Option Nat)
    (newId : String) (secret : List Char) (now : Nat) : APIKey :=
  { id := newId, subject := subject, subjectType := subjType,
    name := keyName, description := none,
    keyPfx := derivePfx secret, keyHash := hash secret,
    scopes := scopes, claims := claims, createdBy := actor,
    lastUsedAt := none, expiresAt := expiresAt, revokedAt := none,
    revokedBy := none, revocationReason := none,
    createdAt := now, updatedAt := now }

/-- Modelled from the spec: `create` of section 4.7 combined with the data
model of `src/unnamed/part_000` section 2.2.  The fresh secret (produced by
the secret generator) and the fresh record id are explicit inputs; the
record stores only `derivePfx secret` and `hash secret`, and the pair
`(record, secret)` is returned — the only point at which the plaintext
secret leaves the engine.  A `created` audit event is appended. -/
def createApiKey (hash : List Char → List Char) (s : LifecycleState)
    (actor subject : String) (subjType : SubjectType) (keyName : String)
    (scopes : List String) (claims : List (String × String))
    (expiresAt : Option Nat) (newId : String) (secret : List Char)
    (now : Nat) : Except CreateError (LifecycleState × APIKey × List Char) :=
  if s.store.any (fun k => k.id == newId) then .error .DuplicateId
  else
    .ok ({ store := s.store ++
             [freshRecord hash actor subject subjType keyName scopes claims
               expiresAt newId secret now],
           audit := s.audit ++ [{ apiKeyId := newId, eventType := .created,
                                  actorId := some actor, createdAt := now }] },
         freshRecord hash actor subject subjType keyName scopes claims
           expiresAt newId secret now, secret)

/-- A `PATCH` body for a key: the allowed updates of
`src/unnamed/part_000` section 3.1 are `name`, `description`, `scopes`
(narrowing only) and `claims`; an absent field leaves the record field
unchanged. -/
structure KeyPatch where
  name : Option String := none
  description : Option String := none
  scopes : Option (List String) := none
  claims : Option (List (String × String)) := none
deriving DecidableEq

/-- Whether the patch's scope set (when present) is contained in the key's
current scopes. -/
def scopesNarrowOk (k : APIKey) (p : KeyPatch) : Bool :=
  match p.scopes with
  | some ns => ns.all (fun sc => k.scopes.contains sc)
  | none => true

/-- Applies the allowed fields of a patch to a record; every other field
is left untouched. -/
def applyPatch (k : APIKey) (p : KeyPatch) (now : Nat) : APIKey :=
  { k with
    name := p.name.getD k.name,
    description := match p.description with
      | some d => some d
      | none => k.description,
    scopes := p.scopes.getD k.scopes,
    claims := p.claims.getD k.claims,
    updatedAt := now }

/-- The per-record effect of an update targeting `keyId`. -/
def updateMark (keyId : String) (p : KeyPatch) (now : Nat) (r : APIKey) : APIKey :=
  if r.id == keyId then applyPatch r p now else r

/-- Update failures. -/
inductive UpdateError
  | KeyNotFound
  | ScopeExpansionRejected
deriving DecidableEq

/-- Modelled from the spec: `update(actor, keyId, patch)` of section 4.7 —
only name/description/claims/scope-narrowing are accepted, and a patch
whose scopes are not a subset of the current scopes fails with
`ScopeExpansionRejected`. -/
def updateApiKey (s : LifecycleState) (keyId : String) (p : KeyPatch)
    (now : Nat) : Except UpdateError LifecycleState :=
  match s.store.find? (fun k => k.id == keyId) with
  | none => .error .KeyNotFound
  | some k =>
    if scopesNarrowOk k p then
      .ok { s with store := s.store.map (updateMark keyId p now) }
    else .error .ScopeExpansionRejected

/-- Revocation failures. -/
inductive RevokeError
  | KeyNotFound
  | AlreadyRevoked
deriving DecidableEq

/-- The per-record effect of a revocation of `keyId`: sets the revocation
fields, leaves every other record alone. -/
def revokeMark (keyId actor reason : String) (now : Nat) (r : APIKey) : APIKey :=
  if r.id == keyId then
    { r with revokedAt := some now, revokedBy := some actor,
             revocationReason := some reason, updatedAt := now }
  else r

/-- `markRevoked` of the credential store (spec section 4.2). -/
def markRevoked (store : List APIKey) (keyId actor reason : String)
    (now : Nat) : List APIKey :=
  store.map (revokeMark keyId actor reason now)

/-- Modelled from the spec: `revoke(actor, keyId, reason)` of section 4.7 —
idempotent-failing (fails with `AlreadyRevoked` when `revokedAt` is already
present, leaving the state untouched), otherwise sets the revocation fields
and appends a `revoked` audit event.  The repository's `revokeApiKey`
server action delegates the state change to an external service. -/
def revokeApiKey (s : LifecycleState) (actor keyId reason : String)
    (now : Nat) : Except RevokeError LifecycleState :=
  match s.store.find? (fun k => k.id == keyId) with
  | none => .error .KeyNotFound
  | some k =>
    if k.revokedAt.isSome then .error .AlreadyRevoked
    else
      .ok { store := markRevoked s.store keyId actor reason now,
            audit := s.audit ++ [{ apiKeyId := keyId, eventType := .revoked,
                                   actorId := some actor, createdAt := now }] }

/-- The best-effort `lastUsedAt` touch scheduled by a successful
verification (spec section 4.3, step 7). -/
def touchUsed (s : LifecycleState) (keyId : String) (now : Nat) : LifecycleState :=
  { s with store := s.store.map (fun r =>
      if r.id == keyId then { r with lastUsedAt := some now } else r) }

/-- Every state-changing operation of the lifecycle manager, used to state
that revocation survives arbitrary later operations. -/
inductive Op
  | createOp (actor subject : String) (subjType : SubjectType)
      (keyName : String) (scopes : List String)
      (claims : List (String × String)) (expiresAt : Option Nat)
      (newId : String) (secret : List Char) (now : Nat)
  | updateOp (keyId : String) (p : KeyPatch) (now : Nat)
  | revokeOp (actor keyId reason : String) (now : Nat)
  | useOp (keyId : String) (now : Nat)

/-- Runs one operation; a failing operation leaves the state unchanged. -/
def applyOp (hash : List Char → List Char) (s : LifecycleState) :
    Op → LifecycleState
  | .createOp actor subject subjType keyName scopes claims expiresAt newId secret now =>
    match createApiKey hash s actor subject subjType keyName scopes claims
        expiresAt newId secret now with
    | .ok (s2, _, _) => s2
    | .error _ => s
  | .updateOp keyId p now =>
    match updateApiKey s keyId p now with
    | .ok s2 => s2
    | .error _ => s
  | .revokeOp actor keyId reason now =>
    match revokeApiKey s actor keyId reason now with
    | .ok s2 => s2
    | .error _ => s
  | .useOp keyId now => touchUsed s keyId now

/-- Runs a trace of operations. -/
def applyOps (hash : List Char → List Char) (s : LifecycleState)
    (ops : List Op) : LifecycleState :=
  ops.foldl (applyOp hash) s

/-- Store well-formedness: record ids are unique (`id` is the primary key
of the `api_keys` table). -/
def storeWf (s : LifecycleState) : Prop :=
  (s.store.map (fun k => k.id)).Nodup

/-- Revocations persist from state `s` to state `s2`: a record revoked at
`t` still exists under its id, and every record carrying that id is still
revoked at `t`. -/
def RevPersist (s s2 : LifecycleState) : Prop :=
  ∀ r ∈ s.store, ∀ t, r.revokedAt = some t →
    (∃ r2 ∈ s2.store, r2.id = r.id ∧ r2.revokedAt = some t) ∧
    (∀ r2 ∈ s2.store, r2.id = r.id → r2.revokedAt = some t)

/-! ## Request middleware (embedded from `withAuth` and
`authenticateApiKey`, `src/docs/ORGANIZATION_API_KEYS_PLAN.md`
sections 3.4-3.5) -/

/-- The `ApiKeyAuthResult` interface of section 3.4. -/
structure ApiKeyAuthResult where
  valid : Bool
  userId : Option String := none
  orgId : Option String := none
  scopes : Option (List String) := none
  errMsg : Option String := none
deriving DecidableEq

/-- The `authMethod` discriminator attached by `withAuth`. -/
inductive AuthMethod
  | apiKeyHeader
  | session
deriving DecidableEq

/-- The authenticated context `withAuth` returns on success. -/
structure AuthContext where
  userId : Option String
  orgId : Option String
  scopes : Option (List String)
  authMethod : AuthMethod
deriving DecidableEq

/-- The two headers `withAuth` inspects. -/
structure HttpRequest where
  xApiKey : Option String
  authorization : Option String
deriving DecidableEq

/-- The interactive-session auth context (`auth()` from the session
provider). -/
structure ClerkSession where
  userId : Option String
  orgId : Option String
deriving DecidableEq

/-- Embeds `withAuth(request)` of section 3.5: path 1 authenticates a
presented `x-api-key` header through the key verifier; path 2 accepts a
valid interactive session and attaches `scopes: ['*']`; otherwise the
request is rejected with a 401 body. -/
def withAuth (authenticate : String → ApiKeyAuthResult)
    (session : ClerkSession) (request : HttpRequest) :
    Except String AuthContext :=
  match request.xApiKey with
  | some apiKey =>
    let result := authenticate apiKey
    if result.valid then
      .ok { userId := result.userId, orgId := result.orgId,
            scopes := result.scopes, authMethod := .apiKeyHeader }
    else .error (result.errMsg.getD "")
  | none =>
    match session.userId with
    | some uid =>
      .ok { userId := some uid, orgId := session.orgId,
            scopes := some ["*"], authMethod := .session }
    | none => .error "Unauthorized"

deriving instance DecidableEq for Except

/-! ## Concrete fixtures for witnesses -/

/-- Whether an `Except` value is a success. -/
def isOkE {ε α : Type} : Except ε α → Bool
  | .ok _ => true
  | .error _ => false

/-- A concrete hash function with collisions (only a suffix of the secret
is kept), used to witness that reads depend on secrets only through their
hash and prefix. -/
def cHash : List Char → List Char := fun s => 'h' :: s.take 12

/-- A concrete well-formed secret. -/
def cSecret : List Char := "mc_aaaaaaaaabbbb".data

/-- A second secret agreeing with `cSecret` on hash and prefix. -/
def cSecret2 : List Char := "mc_aaaaaaaaacccc".data

/-- A concrete revoked key matching `cSecret`. -/
def cKeyRevoked : APIKey :=
  { id := "key_1", subject := "org_1", subjectType := .organization,
    name := "ci", description := none, keyPfx := derivePfx cSecret,
    keyHash := cHash cSecret, scopes := ["projects:read"], claims := [],
    createdBy := "user_1", lastUsedAt := none, expiresAt := none,
    revokedAt := some 5, revokedBy := some "user_1",
    revocationReason := some "rotated", createdAt := 1, updatedAt := 5 }

/-- A store holding only the revoked key. -/
def cStRevoked : LifecycleState := { store := [cKeyRevoked], audit := [] }

/-- A concrete live key with scopes `["projects:read"]`. -/
def cKeyLive : APIKey :=
  { id := "key_2", subject := "org_1", subjectType := .organization,
    name := "live", description := none, keyPfx := derivePfx cSecret,
    keyHash := cHash cSecret, scopes := ["projects:read"], claims := [],
    createdBy := "user_1", lastUsedAt := none, expiresAt := none,
    revokedAt := none, revokedBy := none, revocationReason := none,
    createdAt := 1, updatedAt := 1 }

/-- A store holding only the live key. -/
def cStLive : LifecycleState := { store := [cKeyLive], audit := [] }

/-- An expanding patch: adds `exports:write` to a key created with
`projects:read` only. -/
def cPatchExpand : KeyPatch := { scopes := some ["projects:read", "exports:write"] }

/-- A narrowing patch: shrinks the scopes to the empty set. -/
def cPatchEmpty : KeyPatch := { scopes := some [] }

/-- A concrete trace of later operations run against the revoked store. -/
def cTrace : List Op :=
  [Op.updateOp "key_1" { name := some "renamed" } 10,
   Op.useOp "key_1" 11,
   Op.revokeOp "user_2" "key_1" "again" 12]

/-- The record left in the store after running `cTrace`. -/
def cAfterRec : APIKey :=
  ((applyOps cHash cStRevoked cTrace).store).headD cKeyRevoked

/-- A concrete key verifier for middleware witnesses: rejects everything. -/
def cAuthApi : String → ApiKeyAuthResult := fun _ => { valid := false }

/-! ## Helper lemmas -/

lemma contains_iff {α : Type} [BEq α] [LawfulBEq α] (l : List α) (a : α) :
    l.contains a = true ↔ a ∈ l := by
  simp [List.contains, List.elem_iff]

lemma hasScope_some_iff (grants : List String) (req : String) :
    hasScope (some grants) req = true ↔
      "*" ∈ grants ∨ req ∈ grants ∨ (resourceOf req ++ ":*") ∈ grants := by
  simp only [hasScope]
  by_cases h1 : grants.contains "*" = true
  · rw [if_pos h1]
    simp [(contains_iff grants "*").mp h1]
  · rw [if_neg h1]
    by_cases h2 : grants.contains req = true
    · rw [if_pos h2]
      simp [(contains_iff grants req).mp h2]
    · rw [if_neg h2]
      by_cases h3 : grants.contains (resourceOf req ++ ":*") = true
      · rw [if_pos h3]
        simp [(contains_iff grants (resourceOf req ++ ":*")).mp h3]
      · rw [if_neg h3]
        have n1 : "*" ∉ grants := fun hm => h1 ((contains_iff grants "*").mpr hm)
        have n2 : req ∉ grants := fun hm => h2 ((contains_iff grants req).mpr hm)
        have n3 : (resourceOf req ++ ":*") ∉ grants :=
          fun hm => h3 ((contains_iff grants (resourceOf req ++ ":*")).mpr hm)
        simp [n1, n2, n3]

lemma hasScope_wildcard (req : String) : hasScope (some ["*"]) req = true := rfl

lemma resourceOf_no_colon (req : String) (h : ':' ∉ req.data) :
    resourceOf req = req := by
  unfold resourceOf
  have ht : req.data.takeWhile (fun c => decide (c ≠ ':')) = req.data := by
    rw [List.takeWhile_eq_self_iff]
    intro a ha
    simp only [decide_eq_true_iff]
    exact fun heq => h (heq ▸ ha)
  rw [ht]

/-! ## Claim theorems -/

/-- C1: for every granted scope set and required scope, the scope evaluator
returns `true` exactly when the grant contains the global wildcard `"*"`,
the exact required scope, or `resource ++ ":*"` where `resource` is the
part of the required scope before the first `':'`; in particular the three
documented examples hold.  `hasScope` is a plain Lean function, hence a
pure function with no side effects. -/
theorem c1_hasScope_semantics :
    (∀ (grants : List String) (req : String),
        hasScope (some grants) req = true ↔
          "*" ∈ grants ∨ req ∈ grants ∨ (resourceOf req ++ ":*") ∈ grants)
    ∧ hasScope (some ["projects:*"]) "projects:read" = true
    ∧ hasScope (some ["projects:read"]) "projects:write" = false
    ∧ ∀ s : String, hasScope (some ["*"]) s = true :=
  ⟨hasScope_some_iff, by decide, by decide, hasScope_wildcard⟩

/-- C4 counterexample: in the code, the separator-less required scope
`"projects"` IS satisfied by the resource-wildcard grant `"projects:*"`
(because `"projects".split(':')[0]` is `"projects"` itself), contradicting
the claim that only an identical grant or the global wildcard matches. -/
theorem c4_counterexample : hasScope (some ["projects:*"]) "projects" = true := by
  decide

/-- C4 (amended): for a required scope containing no `':'`, the resource
computed by the evaluator is the whole scope, so the requirement is
satisfied exactly when the grant contains the global wildcard `"*"`, the
identical string, or the resource wildcard `req ++ ":*"` built from the
whole scope. -/
theorem c4_no_separator_semantics (grants : List String) (req : String)
    (h : ':' ∉ req.data) :
    hasScope (some grants) req = true ↔
      "*" ∈ grants ∨ req ∈ grants ∨ (req ++ ":*") ∈ grants := by
  rw [hasScope_some_iff, resourceOf_no_colon req h]

/-- Witness for the amended C4 at the concrete separator-less scope
`"exports"`. -/
theorem c4_no_separator_semantics_witness :
    hasScope (some ["exports:*"]) "exports" = true ↔
      "*" ∈ ["exports:*"] ∨ "exports" ∈ (["exports:*"] : List String) ∨
        ("exports" ++ ":*") ∈ (["exports:*"] : List String) :=
  c4_no_separator_semantics ["exports:*"] "exports" (by decide)

/-- C8: the public prefix produced by the secret generator is the
deterministic function `derivePfx` of the encoded secret, has the fixed
length 12 (product tag plus a short fragment) whenever the random material
is long enough, is a leading substring of the secret (take/drop split),
and begins with the product tag. -/
theorem c8_pfx_determinism (randomPart : List Char)
    (hlen : 9 ≤ randomPart.length) :
    (generateAPIKey randomPart).2 = derivePfx (generateAPIKey randomPart).1
    ∧ ((generateAPIKey randomPart).2).length = 12
    ∧ (generateAPIKey randomPart).2 ++ ((generateAPIKey randomPart).1).drop 12
        = (generateAPIKey randomPart).1
    ∧ ((generateAPIKey randomPart).2).take 3 = productTag := by
  refine ⟨rfl, ?_, ?_, ?_⟩
  · show ((productTag ++ randomPart).take 12).length = 12
    rw [List.length_take, List.length_append]
    have h3 : productTag.length = 3 := rfl
    omega
  · show (productTag ++ randomPart).take 12 ++ (productTag ++ randomPart).drop 12
        = productTag ++ randomPart
    exact List.take_append_drop 12 (productTag ++ randomPart)
  · show ((productTag ++ randomPart).take 12).take 3 = productTag
    rw [List.take_take]
    norm_num
    have h3 : productTag.length = 3 := rfl
    rw [← h3, List.take_left]

/-- Witness for C8 at a concrete 9-character random part. -/
theorem c8_pfx_determinism_witness :
    9 ≤ ("abcdefghi".data).length
    ∧ ((generateAPIKey ("abcdefghi".data)).2
          = derivePfx (generateAPIKey ("abcdefghi".data)).1
      ∧ ((generateAPIKey ("abcdefghi".data)).2).length = 12
      ∧ (generateAPIKey ("abcdefghi".data)).2
            ++ ((generateAPIKey ("abcdefghi".data)).1).drop 12
          = (generateAPIKey ("abcdefghi".data)).1
      ∧ ((generateAPIKey ("abcdefghi".data)).2).take 3 = productTag) :=
  ⟨by decide, c8_pfx_determinism ("abcdefghi".data) (by decide)⟩

/-- C9: a request carrying no API-key header that is authenticated by a
valid interactive session gets the scope set `["*"]` attached by the
middleware, and every `hasScope` check on that scope set succeeds. -/
theorem c9_session_gets_wildcard (authenticate : String → ApiKeyAuthResult)
    (session : ClerkSession) (request : HttpRequest) (uid : String)
    (hkey : request.xApiKey = none) (huid : session.userId = some uid) :
    withAuth authenticate session request =
      .ok { userId := some uid, orgId := session.orgId,
            scopes := some ["*"], authMethod := .session }
    ∧ ∀ req : String, hasScope (some ["*"]) req = true := by
  constructor
  · simp [withAuth, hkey, huid]
  · exact hasScope_wildcard

/-- Witness for C9 at a concrete session-authenticated request. -/
theorem c9_session_gets_wildcard_witness :
    withAuth cAuthApi { userId := some "user_7", orgId := some "org_7" }
        { xApiKey := none, authorization := some "session-cookie" } =
      .ok { userId := some "user_7", orgId := some "org_7",
            scopes := some ["*"], authMethod := .session }
    ∧ ∀ req : String, hasScope (some ["*"]) req = true :=
  c9_session_gets_wildcard cAuthApi
    { userId := some "user_7", orgId := some "org_7" }
    { xApiKey := none, authorization := some "session-cookie" }
    "user_7" rfl rfl

/-- C10: with an absent (`undefined`) granted scope set the evaluator
returns `false` for every required scope — the caller is denied, and no
error is raised (the function totally evaluates). -/
theorem c10_undefined_grants_denied : ∀ req : String, hasScope none req = false :=
  fun _ => rfl

lemma revokeMark_keyPfx (keyId actor reason : String) (now : Nat) (r : APIKey) :
    (revokeMark keyId actor reason now r).keyPfx = r.keyPfx := by
  unfold revokeMark
  split <;> rfl

lemma revokeMark_keyHash (keyId actor reason : String) (now : Nat) (r : APIKey) :
    (revokeMark keyId actor reason now r).keyHash = r.keyHash := by
  unfold revokeMark
  split <;> rfl

lemma revokeMark_id (keyId actor reason : String) (now : Nat) (r : APIKey) :
    (revokeMark keyId actor reason now r).id = r.id := by
  unfold revokeMark
  split <;> rfl

lemma revokeMark_revokedAt_self (keyId actor reason : String) (now : Nat)
    (r : APIKey) (h : r.id = keyId) :
    (revokeMark keyId actor reason now r).revokedAt = some now := by
  unfold revokeMark
  rw [if_pos (by simp [h])]

lemma findCandidate_map (hash : List Char → List Char) (g : APIKey → APIKey)
    (hp : ∀ r, (g r).keyPfx = r.keyPfx) (hh : ∀ r, (g r).keyHash = r.keyHash)
    (store : List APIKey) (secret : List Char) :
    findCandidate hash (store.map g) secret
      = (findCandidate hash store secret).map g := by
  unfold findCandidate findByPfx
  induction store with
  | nil => rfl
  | cons a l ih =>
    simp only [List.map_cons, List.filter_cons, hp, hh]
    by_cases hc : (a.keyPfx == derivePfx secret) = true
    · rw [if_pos hc, if_pos hc]
      by_cases hm : (a.keyHash == hash secret) = true
      · simp [List.find?_cons, hh, hm]
      · have hm' : (a.keyHash == hash secret) = false := by simpa using hm
        simp only [List.find?_cons, hh, hm']
        exact ih
    · rw [if_neg hc, if_neg hc]
      exact ih

/-- C2: the verifier fails with `InvalidKey` when no stored candidate's
hash matches the presented secret, with `RevokedKey` when the matched
record has `revokedAt` set, and with `ExpiredKey` when the matched record's
`expiresAt` is present and not in the future; and after a successful
revocation of the matched key, every verification of that secret against
the new state fails with `RevokedKey`, at every read time. -/
theorem c2_verify_failure_modes (hash : List Char → List Char) :
    (∀ (store : List APIKey) (secret : List Char) (now : Nat),
        findCandidate hash store secret = none →
          verifyApiKey hash store secret now = .error .InvalidKey)
    ∧ (∀ (store : List APIKey) (secret : List Char) (now : Nat) (k : APIKey),
        findCandidate hash store secret = some k → k.revokedAt.isSome →
          verifyApiKey hash store secret now = .error .RevokedKey)
    ∧ (∀ (store : List APIKey) (secret : List Char) (now : Nat) (k : APIKey)
          (e : Nat),
        findCandidate hash store secret = some k → k.revokedAt = none →
          k.expiresAt = some e → e ≤ now →
          verifyApiKey hash store secret now = .error .ExpiredKey)
    ∧ (∀ (s : LifecycleState) (secret : List Char) (actor reason : String)
          (rnow : Nat) (k : APIKey) (s2 : LifecycleState),
        findCandidate hash s.store secret = some k →
        revokeApiKey s actor k.id reason rnow = .ok s2 →
          ∀ now, verifyApiKey hash s2.store secret now = .error .RevokedKey) := by
  refine ⟨?_, ?_, ?_, ?_⟩
  · intro store secret now h
    simp [verifyApiKey, h]
  · intro store secret now k h hrev
    simp [verifyApiKey, h, hrev]
  · intro store secret now k e h hrev hexp hle
    simp [verifyApiKey, h, hrev, hexp, hle]
  · intro s secret actor reason rnow k s2 hfind hrevoke now
    unfold revokeApiKey at hrevoke
    cases hfd : s.store.find? (fun kk => kk.id == k.id) with
    | none => rw [hfd] at hrevoke; cases hrevoke
    | some k0 =>
      rw [hfd] at hrevoke
      by_cases hr0 : k0.revokedAt.isSome = true
      · simp [hr0] at hrevoke
      · simp [hr0] at hrevoke
        rw [← hrevoke]
        have hmap := findCandidate_map hash (revokeMark k.id actor reason rnow)
          (revokeMark_keyPfx k.id actor reason rnow)
          (revokeMark_keyHash k.id actor reason rnow) s.store secret
        have hfound : findCandidate hash
            (markRevoked s.store k.id actor reason rnow) secret
              = some (revokeMark k.id actor reason rnow k) := by
          unfold markRevoked
          rw [hmap, hfind]
          rfl
        have hrevSet : (revokeMark k.id actor reason rnow k).revokedAt
            = some rnow := revokeMark_revokedAt_self k.id actor reason rnow k rfl
        simp [verifyApiKey, hfound, hrevSet]

/-- Witness for C2: the concrete revoked key is rejected with `RevokedKey`
even though the presented secret is the correct one. -/
theorem c2_verify_failure_modes_witness :
    verifyApiKey cHash cStRevoked.store cSecret 6 = .error .RevokedKey :=
  (c2_verify_failure_modes cHash).2.1 cStRevoked.store cSecret 6 cKeyRevoked
    (by decide) (by decide)

/-- C5: a key is classified active exactly when `revokedAt` is absent and
`expiresAt` is absent or still in the future (the predicate of the partial
index `idx_api_keys_active`); the status used by listing is computed from
these timestamp fields at read time (`statusOf` agrees with `isActive`),
and a revoked key appears under the `revoked` listing filter and never
under the `active` one. -/
theorem c5_derived_status :
    (∀ (now : Nat) (k : APIKey),
        isActive now k = true ↔
          k.revokedAt = none ∧
            (k.expiresAt = none ∨ ∃ e, k.expiresAt = some e ∧ now < e))
    ∧ (∀ (now : Nat) (k : APIKey),
        statusOf now k = KeyStatus.active ↔ isActive now k = true)
    ∧ (∀ (now : Nat) (store : List APIKey) (subj : String) (k : APIKey),
        k ∈ store → k.subject = subj → k.revokedAt.isSome →
          k ∈ listApiKeys store subj StatusFilter.revoked now ∧
          k ∉ listApiKeys store subj StatusFilter.active now) := by
  refine ⟨?_, ?_, ?_⟩
  · intro now k
    cases hrev : k.revokedAt <;> cases hexp : k.expiresAt <;>
      simp [isActive, hrev, hexp]
  · intro now k
    cases hrev : k.revokedAt with
    | some t => simp [statusOf, isActive, hrev]
    | none =>
      cases hexp : k.expiresAt with
      | none => simp [statusOf, isActive, hrev, hexp]
      | some e =>
        by_cases hle : e ≤ now <;>
          simp [statusOf, isActive, hrev, hexp, hle] <;> omega
  · intro now store subj k hmem hsubj hrev
    have hstat : statusOf now k = KeyStatus.revoked := by
      simp [statusOf, hrev]
    constructor
    · simp [listApiKeys, List.mem_filter, hmem, hsubj, hstat]
    · simp [listApiKeys, List.mem_filter, hstat]

/-- Witness for C5: the concrete revoked key is listed under the `revoked`
filter and not under the `active` filter. -/
theorem c5_derived_status_witness :
    cKeyRevoked ∈ listApiKeys cStRevoked.store "org_1" StatusFilter.revoked 6
    ∧ decide (cKeyRevoked ∈
        listApiKeys cStRevoked.store "org_1" StatusFilter.active 6) = false := by
  have h := c5_derived_status.2.2 6 cStRevoked.store "org_1" cKeyRevoked
    (by decide) (by decide) (by decide)
  exact ⟨h.1, decide_eq_false h.2⟩

/-- C3: the plaintext secret is returned exactly once — by the create
operation itself, whose returned secret component is the input secret;
afterwards the state retains only the one-way hash and the public prefix.
Two secrets agreeing on hash and prefix produce, up to the one-time
returned secret, identical creation results, identical stored states and
records, and identical outputs of every read operation (filtered listing,
the listing projection, lookup by id, lookup by prefix) — so no read can
return or reconstruct the plaintext. -/
theorem c3_secret_once (hash : List Char → List Char) (s : LifecycleState)
    (actor subject : String) (subjType : SubjectType) (keyName : String)
    (scopes : List String) (claims : List (String × String))
    (expiresAt : Option Nat) (newId : String) (s1 s2 : List Char) (now : Nat)
    (hh : hash s1 = hash s2) (hp : derivePfx s1 = derivePfx s2) :
    (∀ st1 r1 sec1,
        createApiKey hash s actor subject subjType keyName scopes claims
            expiresAt newId s1 now = .ok (st1, r1, sec1) →
          sec1 = s1)
    ∧ Except.map (fun x => (x.1, x.2.1))
        (createApiKey hash s actor subject subjType keyName scopes claims
          expiresAt newId s1 now)
      = Except.map (fun x => (x.1, x.2.1))
        (createApiKey hash s actor subject subjType keyName scopes claims
          expiresAt newId s2 now)
    ∧ (∀ st1 r1 sec1 st2 r2 sec2,
        createApiKey hash s actor subject subjType keyName scopes claims
            expiresAt newId s1 now = .ok (st1, r1, sec1) →
        createApiKey hash s actor subject subjType keyName scopes claims
            expiresAt newId s2 now = .ok (st2, r2, sec2) →
          st1 = st2 ∧ r1 = r2
          ∧ (∀ subj2 sf vnow,
              listApiKeys st1.store subj2 sf vnow = listApiKeys st2.store subj2 sf vnow)
          ∧ (∀ subj2, listApiKeysView st1.store subj2 = listApiKeysView st2.store subj2)
          ∧ (∀ kid, st1.store.find? (fun k => k.id == kid)
              = st2.store.find? (fun k => k.id == kid))
          ∧ (∀ p, findByPfx st1.store p = findByPfx st2.store p)) := by
  have hrec : freshRecord hash actor subject subjType keyName scopes claims
        expiresAt newId s1 now
      = freshRecord hash actor subject subjType keyName scopes claims
          expiresAt newId s2 now := by
    unfold freshRecord
    rw [hh, hp]
  refine ⟨?_, ?_, ?_⟩
  · intro st1 r1 sec1 hcr
    unfold createApiKey at hcr
    by_cases hdup : (s.store.any (fun k => k.id == newId)) = true
    · rw [if_pos hdup] at hcr
      cases hcr
    · rw [if_neg hdup] at hcr
      simp only [Except.ok.injEq, Prod.mk.injEq] at hcr
      exact hcr.2.2.symm
  · unfold createApiKey
    by_cases hdup : (s.store.any (fun k => k.id == newId)) = true
    · rw [if_pos hdup, if_pos hdup]
    · rw [if_neg hdup, if_neg hdup, hrec]
      simp [Except.map]
  · intro st1 r1 sec1 st2 r2 sec2 h1 h2
    unfold createApiKey at h1 h2
    by_cases hdup : (s.store.any (fun k => k.id == newId)) = true
    · rw [if_pos hdup] at h1
      cases h1
    · rw [if_neg hdup] at h1
      rw [if_neg hdup] at h2
      simp only [Except.ok.injEq, Prod.mk.injEq] at h1 h2
      obtain ⟨h1a, h1b, -⟩ := h1
      obtain ⟨h2a, h2b, -⟩ := h2
      subst h1a
      subst h1b
      subst h2a
      subst h2b
      refine ⟨by rw [hrec], by rw [hrec], fun subj2 sf vnow => by rw [hrec],
        fun subj2 => by rw [hrec], fun kid => by rw [hrec],
        fun p => by rw [hrec]⟩

/-- Witness for C3: creating with the two concrete colliding secrets gives
identical results once the one-time returned secret is dropped. -/
theorem c3_secret_once_witness :
    Except.map (fun x => (x.1, x.2.1))
        (createApiKey cHash cStRevoked "user_1" "org_1" SubjectType.organization
          "ci2" ["exports:write"] [] none "key_9" cSecret 7)
      = Except.map (fun x => (x.1, x.2.1))
        (createApiKey cHash cStRevoked "user_1" "org_1" SubjectType.organization
          "ci2" ["exports:write"] [] none "key_9" cSecret2 7) :=
  (c3_secret_once cHash cStRevoked "user_1" "org_1" SubjectType.organization
    "ci2" ["exports:write"] [] none "key_9" cSecret cSecret2 7
    (by decide) (by decide)).2.1

lemma store_id_inj (s : LifecycleState) (hwf : storeWf s) {a b : APIKey}
    (ha : a ∈ s.store) (hb : b ∈ s.store) (h : a.id = b.id) : a = b :=
  List.inj_on_of_nodup_map hwf ha hb h

lemma revPersist_refl (s : LifecycleState) (hwf : storeWf s) : RevPersist s s := by
  intro r hr t ht
  refine ⟨⟨r, hr, rfl, ht⟩, ?_⟩
  intro r2 hr2 hid
  rw [store_id_inj s hwf hr2 hr hid]
  exact ht

lemma revPersist_trans {s1 s2 s3 : LifecycleState}
    (h12 : RevPersist s1 s2) (h23 : RevPersist s2 s3) : RevPersist s1 s3 := by
  intro r hr t ht
  obtain ⟨⟨r2, hr2, hid2, ht2⟩, -⟩ := h12 r hr t ht
  obtain ⟨⟨r3, hr3, hid3, ht3⟩, hall3⟩ := h23 r2 hr2 t ht2
  refine ⟨⟨r3, hr3, hid3.trans hid2, ht3⟩, ?_⟩
  intro r4 hr4 hid4
  exact hall3 r4 hr4 (hid4.trans hid2.symm)

lemma revPersist_map (s : LifecycleState) (g : APIKey → APIKey)
    (audit2 : List AuditEvent) (hwf : storeWf s)
    (hid : ∀ r, (g r).id = r.id)
    (hrev : ∀ r ∈ s.store, ∀ t, r.revokedAt = some t → (g r).revokedAt = some t) :
    RevPersist s { store := s.store.map g, audit := audit2 } := by
  intro r hr t ht
  constructor
  · exact ⟨g r, List.mem_map_of_mem g hr, hid r, hrev r hr t ht⟩
  · intro r2 hr2 hidr2
    obtain ⟨r0, hr0, rfl⟩ := List.mem_map.mp hr2
    have h0 : r0.id = r.id := by
      rw [← hid r0]
      exact hidr2
    rw [store_id_inj s hwf hr0 hr h0]
    exact hrev r hr t ht

lemma storeWf_map (s : LifecycleState) (g : APIKey → APIKey)
    (audit2 : List AuditEvent) (hwf : storeWf s)
    (hid : ∀ r, (g r).id = r.id) :
    storeWf { store := s.store.map g, audit := audit2 } := by
  show ((s.store.map g).map (fun k => k.id)).Nodup
  rw [List.map_map]
  rw [show ((fun k : APIKey => k.id) ∘ g) = (fun a : APIKey => (g a).id) from rfl]
  rw [List.map_congr_left (fun a _ => hid a)]
  exact hwf

lemma revPersist_append (s : LifecycleState) (rNew : APIKey)
    (audit2 : List AuditEvent) (hwf : storeWf s)
    (hfresh : ∀ r ∈ s.store, r.id ≠ rNew.id) :
    RevPersist s { store := s.store ++ [rNew], audit := audit2 } := by
  intro r hr t ht
  constructor
  · exact ⟨r, List.mem_append_left _ hr, rfl, ht⟩
  · intro r2 hr2 hid
    rcases List.mem_append.mp hr2 with h2 | h2
    · rw [store_id_inj s hwf h2 hr hid]
      exact ht
    · exfalso
      have he : r2 = rNew := by simpa using h2
      subst he
      exact hfresh r hr hid.symm

lemma storeWf_append (s : LifecycleState) (rNew : APIKey)
    (audit2 : List AuditEvent) (hwf : storeWf s)
    (hfresh : ∀ r ∈ s.store, r.id ≠ rNew.id) :
    storeWf { store := s.store ++ [rNew], audit := audit2 } := by
  show ((s.store ++ [rNew]).map (fun k => k.id)).Nodup
  rw [List.map_append]
  refine List.Nodup.append hwf (List.nodup_singleton _) ?_
  intro x hx hy
  have hxr : x = rNew.id := by simpa using hy
  obtain ⟨r, hr, hx2⟩ := List.mem_map.mp hx
  exact hfresh r hr (by rw [hx2, hxr])

lemma applyOp_wf_persist (hash : List Char → List Char) (s : LifecycleState)
    (op : Op) (hwf : storeWf s) :
    RevPersist s (applyOp hash s op) ∧ storeWf (applyOp hash s op) := by
  cases op with
  | createOp actor subject subjType keyName scopes claims expiresAt newId secret now =>
    by_cases hdup : (s.store.any (fun k => k.id == newId)) = true
    · simp only [applyOp, createApiKey, if_pos hdup]
      exact ⟨revPersist_refl s hwf, hwf⟩
    · have hfresh : ∀ r ∈ s.store,
          r.id ≠ (freshRecord hash actor subject subjType keyName scopes claims
            expiresAt newId secret now).id := by
        intro r hr heq
        apply hdup
        rw [List.any_eq_true]
        exact ⟨r, hr, by simpa [freshRecord] using heq⟩
      simp only [applyOp, createApiKey, if_neg hdup]
      exact ⟨revPersist_append s _ _ hwf hfresh, storeWf_append s _ _ hwf hfresh⟩
  | updateOp keyId p now =>
    cases hfd : s.store.find? (fun k => k.id == keyId) with
    | none =>
      simp only [applyOp, updateApiKey, hfd]
      exact ⟨revPersist_refl s hwf, hwf⟩
    | some k0 =>
      by_cases hok : scopesNarrowOk k0 p = true
      · have hid : ∀ r, (updateMark keyId p now r).id = r.id := by
          intro r
          unfold updateMark applyPatch
          split <;> rfl
        have hrev : ∀ r ∈ s.store, ∀ t, r.revokedAt = some t →
            (updateMark keyId p now r).revokedAt = some t := by
          intro r _ t ht
          unfold updateMark applyPatch
          split <;> exact ht
        simp only [applyOp, updateApiKey, hfd, if_pos hok]
        exact ⟨revPersist_map s _ _ hwf hid hrev, storeWf_map s _ _ hwf hid⟩
      · simp only [applyOp, updateApiKey, hfd, if_neg hok]
        exact ⟨revPersist_refl s hwf, hwf⟩
  | revokeOp actor keyId reason now =>
    cases hfd : s.store.find? (fun k => k.id == keyId) with
    | none =>
      simp only [applyOp, revokeApiKey, hfd]
      exact ⟨revPersist_refl s hwf, hwf⟩
    | some k0 =>
      by_cases hr0 : k0.revokedAt.isSome = true
      · simp only [applyOp, revokeApiKey, hfd, if_pos hr0]
        exact ⟨revPersist_refl s hwf, hwf⟩
      · have hrev : ∀ r ∈ s.store, ∀ t, r.revokedAt = some t →
            (revokeMark keyId actor reason now r).revokedAt = some t := by
          intro r hr t ht
          unfold revokeMark
          by_cases hid : (r.id == keyId) = true
          · exfalso
            have hk0mem : k0 ∈ s.store := List.mem_of_find?_eq_some hfd
            have hk0id := List.find?_some hfd
            have hrk : r = k0 := store_id_inj s hwf hr hk0mem (by
              have h1 : r.id = keyId := by simpa using hid
              have h2 : k0.id = keyId := by simpa using hk0id
              rw [h1, h2])
            rw [hrk] at ht
            exact hr0 (by simp [ht])
          · rw [if_neg hid]
            exact ht
        simp only [applyOp, revokeApiKey, hfd, if_neg hr0, markRevoked]
        exact ⟨revPersist_map s _ _ hwf (revokeMark_id keyId actor reason now) hrev,
          storeWf_map s _ _ hwf (revokeMark_id keyId actor reason now)⟩
  | useOp keyId now =>
    have hid : ∀ r, ((fun r : APIKey =>
        if r.id == keyId then { r with lastUsedAt := some now } else r) r).id
          = r.id := by
      intro r
      dsimp only
      split <;> rfl
    have hrev : ∀ r ∈ s.store, ∀ t, r.revokedAt = some t →
        ((fun r : APIKey =>
          if r.id == keyId then { r with lastUsedAt := some now } else r) r).revokedAt
            = some t := by
      intro r _ t ht
      dsimp only
      split <;> exact ht
    simp only [applyOp, touchUsed]
    exact ⟨revPersist_map s _ _ hwf hid hrev, storeWf_map s _ _ hwf hid⟩

lemma applyOps_wf_persist (hash : List Char → List Char) (ops : List Op) :
    ∀ s : LifecycleState, storeWf s →
      RevPersist s (applyOps hash s ops) ∧ storeWf (applyOps hash s ops) := by
  induction ops with
  | nil =>
    intro s hwf
    exact ⟨revPersist_refl s hwf, hwf⟩
  | cons op rest ih =>
    intro s hwf
    have h1 := applyOp_wf_persist hash s op hwf
    have h2 := ih (applyOp hash s op) h1.2
    exact ⟨revPersist_trans h1.1 h2.1, h2.2⟩

/-- C6: revoking an already-revoked key fails with `AlreadyRevoked` (the
returned value is an error, so no state change is produced); revoking a
live key succeeds, appends a `revoked` audit event and sets the revocation
fields of the target; and on a well-formed store a `revokedAt` timestamp,
once set, is never cleared or changed by any later sequence of create,
update, revoke or usage-touch operations. -/
theorem c6_revoke_oneway (hash : List Char → List Char) :
    (∀ (s : LifecycleState) (actor keyId reason : String) (now : Nat) (k : APIKey),
        s.store.find? (fun kk => kk.id == keyId) = some k → k.revokedAt.isSome →
          revokeApiKey s actor keyId reason now = .error .AlreadyRevoked)
    ∧ (∀ (s : LifecycleState) (actor keyId reason : String) (now : Nat) (k : APIKey),
        s.store.find? (fun kk => kk.id == keyId) = some k → k.revokedAt = none →
          ∃ s2, revokeApiKey s actor keyId reason now = .ok s2
            ∧ s2.audit = s.audit ++
                [{ apiKeyId := keyId, eventType := AuditEventType.revoked,
                   actorId := some actor, createdAt := now }]
            ∧ ∀ r2 ∈ s2.store, r2.id = keyId →
                r2.revokedAt = some now ∧ r2.revokedBy = some actor
                  ∧ r2.revocationReason = some reason)
    ∧ (∀ (s : LifecycleState), storeWf s →
        ∀ r ∈ s.store, ∀ t, r.revokedAt = some t →
          ∀ (ops : List Op), ∀ r2 ∈ (applyOps hash s ops).store,
            r2.id = r.id → r2.revokedAt = some t) := by
  refine ⟨?_, ?_, ?_⟩
  · intro s actor keyId reason now k hfd hrev
    simp [revokeApiKey, hfd, hrev]
  · intro s actor keyId reason now k hfd hrev
    refine ⟨{ store := markRevoked s.store keyId actor reason now,
              audit := s.audit ++
                [{ apiKeyId := keyId, eventType := AuditEventType.revoked,
                   actorId := some actor, createdAt := now }] }, ?_, rfl, ?_⟩
    · simp [revokeApiKey, hfd, hrev]
    · intro r2 hr2 hid
      simp only [markRevoked] at hr2
      obtain ⟨r0, hr0, rfl⟩ := List.mem_map.mp hr2
      have h0 : (r0.id == keyId) = true := by
        rw [beq_iff_eq, ← revokeMark_id keyId actor reason now r0]
        exact hid
      unfold revokeMark
      rw [if_pos h0]
      exact ⟨rfl, rfl, rfl⟩
  · intro s hwf r hr t ht ops r2 hr2 hid
    exact ((applyOps_wf_persist hash ops s hwf).1 r hr t ht).2 r2 hr2 hid

/-- Witness for C6: re-revoking the concrete already-revoked key fails with
`AlreadyRevoked`, and after a concrete trace of update, usage and re-revoke
operations the stored record still carries the original `revokedAt`. -/
theorem c6_revoke_oneway_witness :
    revokeApiKey cStRevoked "user_2" "key_1" "again" 9 = .error .AlreadyRevoked
    ∧ cAfterRec.revokedAt = some 5 := by
  constructor
  · exact (c6_revoke_oneway cHash).1 cStRevoked "user_2" "key_1" "again" 9
      cKeyRevoked (by decide) (by decide)
  · exact (c6_revoke_oneway cHash).2.2 cStRevoked (by unfold storeWf; decide)
      cKeyRevoked (by decide) 5 (by decide) cTrace cAfterRec (by decide) (by decide)

/-- C7: an update is rejected with `ScopeExpansionRejected` exactly when the
patch carries a scope set that is not a subset of the target key's current
scopes; an accepted update changes at most name, description, claims and
scopes, keeps every identity, credential and lifecycle field of every
record, leaves the audit log untouched, and can only shrink the scope set
(every scope of the updated record was already granted). -/
theorem c7_update_narrowing (s : LifecycleState) (keyId : String)
    (p : KeyPatch) (now : Nat) (k : APIKey) (hwf : storeWf s)
    (hfd : s.store.find? (fun kk => kk.id == keyId) = some k) :
    (scopesNarrowOk k p = false →
        updateApiKey s keyId p now = .error .ScopeExpansionRejected)
    ∧ (scopesNarrowOk k p = false ↔
        ∃ ns, p.scopes = some ns ∧ ¬ ∀ sc ∈ ns, sc ∈ k.scopes)
    ∧ (scopesNarrowOk k p = true →
        ∃ s2, updateApiKey s keyId p now = .ok s2 ∧ s2.audit = s.audit
          ∧ ∀ r2 ∈ s2.store, ∃ r0 ∈ s.store, r2.id = r0.id
              ∧ r2.subject = r0.subject ∧ r2.subjectType = r0.subjectType
              ∧ r2.keyPfx = r0.keyPfx ∧ r2.keyHash = r0.keyHash
              ∧ r2.createdBy = r0.createdBy ∧ r2.lastUsedAt = r0.lastUsedAt
              ∧ r2.expiresAt = r0.expiresAt ∧ r2.revokedAt = r0.revokedAt
              ∧ r2.revokedBy = r0.revokedBy
              ∧ r2.revocationReason = r0.revocationReason
              ∧ r2.createdAt = r0.createdAt
              ∧ (r2.scopes = r0.scopes ∨ ∀ sc ∈ r2.scopes, sc ∈ r0.scopes)) := by
  refine ⟨?_, ?_, ?_⟩
  · intro h
    simp [updateApiKey, hfd, h]
  · unfold scopesNarrowOk
    cases hsc : p.scopes with
    | none => simp
    | some ns => simp [contains_iff]
  · intro h
    refine ⟨{ s with store := s.store.map (updateMark keyId p now) }, ?_, rfl, ?_⟩
    · simp [updateApiKey, hfd, h]
    · intro r2 hr2
      obtain ⟨r0, hr0, rfl⟩ := List.mem_map.mp hr2
      refine ⟨r0, hr0, ?_⟩
      unfold updateMark
      by_cases hid : (r0.id == keyId) = true
      · rw [if_pos hid]
        have hr0k : r0 = k := store_id_inj s hwf hr0
          (List.mem_of_find?_eq_some hfd) (by
            have h1 : r0.id = keyId := by simpa using hid
            have h2 : k.id = keyId := by simpa using (List.find?_some hfd)
            rw [h1, h2])
        refine ⟨rfl, rfl, rfl, rfl, rfl, rfl, rfl, rfl, rfl, rfl, rfl, rfl, ?_⟩
        cases hsc : p.scopes with
        | none =>
          left
          simp [applyPatch, hsc]
        | some ns =>
          right
          intro sc hmem
          have hns : sc ∈ ns := by simpa [applyPatch, hsc] using hmem
          have hall : ∀ x ∈ ns, x ∈ k.scopes := by
            simpa [scopesNarrowOk, hsc, contains_iff] using h
          rw [hr0k]
          exact hall sc hns
      · rw [if_neg hid]
        exact ⟨rfl, rfl, rfl, rfl, rfl, rfl, rfl, rfl, rfl, rfl, rfl, rfl, Or.inl rfl⟩

/-- Witness for C7: expanding the concrete key's scopes from
`["projects:read"]` to `["projects:read", "exports:write"]` is rejected
with `ScopeExpansionRejected`, while narrowing to the empty set succeeds. -/
theorem c7_update_narrowing_witness :
    updateApiKey cStLive "key_2" cPatchExpand 9 = .error .ScopeExpansionRejected
    ∧ isOkE (updateApiKey cStLive "key_2" cPatchEmpty 9) = true := by
  constructor
  · exact (c7_update_narrowing cStLive "key_2" cPatchExpand 9 cKeyLive
      (by unfold storeWf; decide) (by decide)).1 (by decide)
  · obtain ⟨s2, hs2, -, -⟩ := (c7_update_narrowing cStLive "key_2" cPatchEmpty 9
      cKeyLive (by unfold storeWf; decide) (by decide)).2.2 (by decide)
    rw [hs2]
    rfl

end MCKeys
